import Mathlib

/-
Formal model of the NCOS v21.7 Setup Detection and Maturity Scoring Engine.

The development embeds the data model and the operations of the engine:
factor-weight configuration loading, feature clamping and weighted scoring,
grade assignment, HTF bias alignment, conflict detection against active
trades, the Wyckoff phase state machine, zone mitigation updates, the
multi-timeframe resampler, and journal-entry validation.  Prices, scores and
weights are modelled as rationals; runtime validation code is modelled as
Bool-valued checks or Except-valued loaders.
-/

namespace NCOS

/-- Direction of a market bias or a structure event. -/
inductive Direction
  | bullish
  | bearish
deriving DecidableEq, Repr

/-- Higher-timeframe trend configuration: bullish, bearish or neutral. -/
inductive HTFTrend
  | bullish
  | bearish
  | neutral
deriving DecidableEq, Repr

/-- The opposite market direction. -/
def Direction.opposite : Direction → Direction
  | .bullish => .bearish
  | .bearish => .bullish

/-- The higher-timeframe trend that points the same way as a direction. -/
def Direction.toTrend : Direction → HTFTrend
  | .bullish => .bullish
  | .bearish => .bearish

/-- The seven factor weights of the maturity scorer.  Embedded from the
pydantic model FactorWeights in the Phoenix-Session architecture document
(NCOS_v21_PHOENIX_MESH_FINAL, lines 304-320): each field carries the range
constraints ge=0.0 and le=1.0. -/
structure FactorWeights where
  htf_bias_alignment : ℚ
  idm_detected_clarity : ℚ
  sweep_validation_strength : ℚ
  choch_confirmation_score : ℚ
  poi_validation_score : ℚ
  tick_density_score : ℚ
  spread_stability_score : ℚ
deriving DecidableEq, Repr

/-- The default factor weights of the pydantic model: 0.2, 0.1, 0.15, 0.15,
0.2, 0.1, 0.1. -/
def defaultFactorWeights : FactorWeights :=
  ⟨0.2, 0.1, 0.15, 0.15, 0.2, 0.1, 0.1⟩

/-- Sum of the seven factor weights, the quantity checked by the check_sum
validator of FactorWeights. -/
def FactorWeights.sum (w : FactorWeights) : ℚ :=
  w.htf_bias_alignment + w.idm_detected_clarity + w.sweep_validation_strength +
    w.choch_confirmation_score + w.poi_validation_score + w.tick_density_score +
    w.spread_stability_score

/-- The per-field range validation of FactorWeights: every weight carries
ge=0.0 and le=1.0 in the pydantic model. -/
def FactorWeights.inRange (w : FactorWeights) : Bool :=
  decide (0 ≤ w.htf_bias_alignment) && decide (w.htf_bias_alignment ≤ 1) &&
  decide (0 ≤ w.idm_detected_clarity) && decide (w.idm_detected_clarity ≤ 1) &&
  decide (0 ≤ w.sweep_validation_strength) && decide (w.sweep_validation_strength ≤ 1) &&
  decide (0 ≤ w.choch_confirmation_score) && decide (w.choch_confirmation_score ≤ 1) &&
  decide (0 ≤ w.poi_validation_score) && decide (w.poi_validation_score ≤ 1) &&
  decide (0 ≤ w.tick_density_score) && decide (w.tick_density_score ≤ 1) &&
  decide (0 ≤ w.spread_stability_score) && decide (w.spread_stability_score ≤ 1)

/-- Loading a FactorWeights configuration.  Embeds the pydantic validation of
the model: every field must satisfy its ge=0.0/le=1.0 constraint, and the
check_sum validator, firing when the seventh field is validated, raises a
ValueError when the absolute difference between the sum of the seven weights
and 1.0 exceeds 0.01. -/
def loadFactorWeights (w : FactorWeights) : Except String FactorWeights :=
  if w.inRange = false then .error "factor weight out of range"
  else if |w.sum - 1| > 0.01 then .error "Factor weights must sum to 1.0"
  else .ok w

/-- Whether loading a FactorWeights configuration succeeds. -/
def loadSucceeds (w : FactorWeights) : Bool :=
  match loadFactorWeights w with
  | .ok _ => true
  | .error _ => false

/-- A configuration whose weights sum to 1.005: off from 1.0 by more than
1e-6 but within the 0.01 tolerance the check_sum validator actually uses. -/
def nearMissWeights : FactorWeights :=
  ⟨0.205, 0.1, 0.15, 0.15, 0.2, 0.1, 0.1⟩

/-- C1 counterexample: the configuration nearMissWeights has weights summing
to 1.005, which is not within floating tolerance 1e-6 of 1.0, yet loading it
succeeds, because the check_sum validator in the source only rejects a sum
differing from 1.0 by more than 0.01. -/
theorem check_sum_tolerance_counterexample :
    loadSucceeds nearMissWeights = true ∧
      ¬ |FactorWeights.sum nearMissWeights - 1| ≤ 1 / 1000000 := by
  constructor
  · unfold loadSucceeds loadFactorWeights
    have hR : nearMissWeights.inRange = true := by
      unfold FactorWeights.inRange nearMissWeights
      norm_num
    have hS : ¬ |nearMissWeights.sum - 1| > 0.01 := by
      unfold FactorWeights.sum nearMissWeights
      norm_num [abs_le]
    rw [hR]
    simp [hS]
  · unfold FactorWeights.sum nearMissWeights
    norm_num [lt_abs]

/-- C1 (amended): loading a factor-weight configuration succeeds exactly when
every weight lies in [0,1] and the seven weights sum to 1.0 within tolerance
0.01; otherwise loading fails with a validation error. -/
theorem loadFactorWeights_ok_iff (w : FactorWeights) :
    loadSucceeds w = true ↔
      (w.inRange = true ∧ |w.sum - 1| ≤ 0.01) := by
  unfold loadSucceeds loadFactorWeights
  split_ifs with h1 h2
  · simp [h1]
  · constructor
    · intro h
      exact absurd h (by simp)
    · intro h
      exact absurd h.2 (not_le.mpr h2)
  · constructor
    · intro _
      refine ⟨?_, not_lt.mp h2⟩
      cases hb : w.inRange with
      | false => exact absurd hb h1
      | true => rfl
    · intro _
      rfl

/-- Rational clamped to the interval [0,1].  Modelled from the spec:
FeatureVector entries are always clamped to [0,1] before weighting; the
feature-extraction module (ncos_feature_extractor.py) normalizes scores to
the 0-1 range but its code is not part of the repository, only the
integration guide describing it. -/
def clamp01 (x : ℚ) : ℚ := max 0 (min 1 x)

/-- The seven named feature scores of a scoring call, one per factor weight. -/
structure FeatureVector where
  htf_bias_alignment : ℚ
  idm_detected_clarity : ℚ
  sweep_validation_strength : ℚ
  choch_confirmation_score : ℚ
  poi_validation_score : ℚ
  tick_density_score : ℚ
  spread_stability_score : ℚ
deriving DecidableEq, Repr

/-- Clamping every entry of a FeatureVector to [0,1]. -/
def FeatureVector.clamp (f : FeatureVector) : FeatureVector :=
  ⟨clamp01 f.htf_bias_alignment, clamp01 f.idm_detected_clarity,
    clamp01 f.sweep_validation_strength, clamp01 f.choch_confirmation_score,
    clamp01 f.poi_validation_score, clamp01 f.tick_density_score,
    clamp01 f.spread_stability_score⟩

/-- Modelled from the spec: maturity_score = Σ(feature_score × weight), the
weighted sum of the seven features (spec 4.5 and the integration guide); the
scoring-engine module (ncos_predictive_engine.py) is not part of the
repository. -/
def score (f : FeatureVector) (w : FactorWeights) : ℚ :=
  f.htf_bias_alignment * w.htf_bias_alignment +
    f.idm_detected_clarity * w.idm_detected_clarity +
    f.sweep_validation_strength * w.sweep_validation_strength +
    f.choch_confirmation_score * w.choch_confirmation_score +
    f.poi_validation_score * w.poi_validation_score +
    f.tick_density_score * w.tick_density_score +
    f.spread_stability_score * w.spread_stability_score

/-- Membership in the unit interval. -/
def inUnit (x : ℚ) : Prop := 0 ≤ x ∧ x ≤ 1

theorem clamp01_nonneg (x : ℚ) : 0 ≤ clamp01 x := le_max_left 0 _

theorem clamp01_le_one (x : ℚ) : clamp01 x ≤ 1 :=
  max_le zero_le_one (min_le_left 1 x)

/-- C2: after clamping, each of the seven feature components lies in [0,1],
and with nonnegative weights summing to 1.0 the weighted score also lies in
[0,1]. -/
theorem clamped_score_in_unit_interval (f : FeatureVector) (w : FactorWeights)
    (hrange : w.inRange = true) (hsum : w.sum = 1) :
    inUnit (f.clamp).htf_bias_alignment ∧
    inUnit (f.clamp).idm_detected_clarity ∧
    inUnit (f.clamp).sweep_validation_strength ∧
    inUnit (f.clamp).choch_confirmation_score ∧
    inUnit (f.clamp).poi_validation_score ∧
    inUnit (f.clamp).tick_density_score ∧
    inUnit (f.clamp).spread_stability_score ∧
    inUnit (score f.clamp w) := by
  simp only [FactorWeights.inRange, Bool.and_eq_true, decide_eq_true_eq] at hrange
  obtain ⟨⟨⟨⟨⟨⟨⟨⟨⟨⟨⟨⟨⟨h1, h1u⟩, h2⟩, h2u⟩, h3⟩, h3u⟩, h4⟩, h4u⟩, h5⟩, h5u⟩,
    h6⟩, h6u⟩, h7⟩, h7u⟩ := hrange
  refine ⟨⟨clamp01_nonneg _, clamp01_le_one _⟩, ⟨clamp01_nonneg _, clamp01_le_one _⟩,
    ⟨clamp01_nonneg _, clamp01_le_one _⟩, ⟨clamp01_nonneg _, clamp01_le_one _⟩,
    ⟨clamp01_nonneg _, clamp01_le_one _⟩, ⟨clamp01_nonneg _, clamp01_le_one _⟩,
    ⟨clamp01_nonneg _, clamp01_le_one _⟩, ?_, ?_⟩
  · unfold score FeatureVector.clamp
    have n1 := mul_nonneg (clamp01_nonneg f.htf_bias_alignment) h1
    have n2 := mul_nonneg (clamp01_nonneg f.idm_detected_clarity) h2
    have n3 := mul_nonneg (clamp01_nonneg f.sweep_validation_strength) h3
    have n4 := mul_nonneg (clamp01_nonneg f.choch_confirmation_score) h4
    have n5 := mul_nonneg (clamp01_nonneg f.poi_validation_score) h5
    have n6 := mul_nonneg (clamp01_nonneg f.tick_density_score) h6
    have n7 := mul_nonneg (clamp01_nonneg f.spread_stability_score) h7
    dsimp only
    linarith
  · unfold score FeatureVector.clamp
    unfold FactorWeights.sum at hsum
    have t1 := mul_le_of_le_one_left h1 (clamp01_le_one f.htf_bias_alignment)
    have t2 := mul_le_of_le_one_left h2 (clamp01_le_one f.idm_detected_clarity)
    have t3 := mul_le_of_le_one_left h3 (clamp01_le_one f.sweep_validation_strength)
    have t4 := mul_le_of_le_one_left h4 (clamp01_le_one f.choch_confirmation_score)
    have t5 := mul_le_of_le_one_left h5 (clamp01_le_one f.poi_validation_score)
    have t6 := mul_le_of_le_one_left h6 (clamp01_le_one f.tick_density_score)
    have t7 := mul_le_of_le_one_left h7 (clamp01_le_one f.spread_stability_score)
    dsimp only
    linarith

/-- An unclamped raw feature vector with entries outside [0,1], used as the
concrete input of the C2 witness. -/
def rawFeatureExample : FeatureVector :=
  ⟨2, -1, 1/2, 3, 1/5, -7/10, 3/2⟩

/-- C2 witness: clamping the concrete raw vector and scoring with the default
weights lands in the unit interval. -/
theorem clamped_score_in_unit_interval_witness :
    inUnit (score (FeatureVector.clamp rawFeatureExample) defaultFactorWeights) :=
  (clamped_score_in_unit_interval rawFeatureExample defaultFactorWeights
    (by norm_num [FactorWeights.inRange, defaultFactorWeights])
    (by norm_num [FactorWeights.sum, defaultFactorWeights])).2.2.2.2.2.2.2

/-- Letter grade of a scored setup. -/
inductive Grade
  | A
  | B
  | C
  | D
deriving DecidableEq, Repr

/-- The grade thresholds of the maturity scorer.  Embedded from the pydantic
model GradeThresholds in the Phoenix-Session architecture document (lines
322-326): fields A, B, C, each with constraints ge=0.0 and le=1.0 and
defaults 0.85, 0.70, 0.55. -/
structure GradeThresholds where
  A : ℚ
  B : ℚ
  C : ℚ
deriving DecidableEq, Repr

/-- The default grade thresholds: A at 0.85, B at 0.70, C at 0.55. -/
def defaultGradeThresholds : GradeThresholds := ⟨0.85, 0.70, 0.55⟩

/-- The per-field range validation of GradeThresholds: every threshold
carries ge=0.0 and le=1.0 in the pydantic model. -/
def GradeThresholds.inRange (t : GradeThresholds) : Bool :=
  decide (0 ≤ t.A) && decide (t.A ≤ 1) && decide (0 ≤ t.B) && decide (t.B ≤ 1) &&
    decide (0 ≤ t.C) && decide (t.C ≤ 1)

/-- Modelled from the spec: grade assignment buckets a score by the
thresholds with inclusive lower bounds, A at or above threshold A, then B,
then C, else D (spec 4.5 and the integration guide part_019, grade bands);
the scoring-engine module holding this code is not part of the repository. -/
def assign_grade (t : GradeThresholds) (s : ℚ) : Grade :=
  if t.A ≤ s then .A else if t.B ≤ s then .B else if t.C ≤ s then .C else .D

/-- Numeric rank of a grade, D lowest. -/
def Grade.rank : Grade → ℕ
  | .D => 0
  | .C => 1
  | .B => 2
  | .A => 3

/-- C3: under the default thresholds a score in [0,1] is graded A exactly
when at least 0.85, B exactly when in [0.70, 0.85), C exactly when in
[0.55, 0.70), and D exactly when below 0.55; every lower bound is
inclusive. -/
theorem default_grade_bands (s : ℚ) (_h0 : 0 ≤ s) (_h1 : s ≤ 1) :
    (assign_grade defaultGradeThresholds s = .A ↔ 0.85 ≤ s) ∧
    (assign_grade defaultGradeThresholds s = .B ↔ (0.70 ≤ s ∧ s < 0.85)) ∧
    (assign_grade defaultGradeThresholds s = .C ↔ (0.55 ≤ s ∧ s < 0.70)) ∧
    (assign_grade defaultGradeThresholds s = .D ↔ s < 0.55) := by
  unfold assign_grade defaultGradeThresholds
  norm_num
  split_ifs with hA hB hC <;>
    refine ⟨?_, ?_, ?_, ?_⟩ <;> simp <;>
    first
      | linarith
      | (constructor <;> linarith)
      | (intro h; linarith)

/-- C3 witness: the boundary score 0.70 is graded into the higher band B. -/
theorem default_grade_bands_witness :
    assign_grade defaultGradeThresholds 0.7 = Grade.B :=
  ((default_grade_bands 0.7 (by norm_num) (by norm_num)).2.1).mpr (by norm_num)

/-- C4: under any threshold set accepted at configuration load, a strictly
higher score in [0,1] never receives a strictly lower grade letter. -/
theorem assign_grade_monotone (t : GradeThresholds) (s1 s2 : ℚ)
    (_hload : t.inRange = true) (_h0 : 0 ≤ s2) (h12 : s2 < s1) (_h1 : s1 ≤ 1) :
    Grade.rank (assign_grade t s2) ≤ Grade.rank (assign_grade t s1) := by
  unfold assign_grade
  split_ifs <;> simp [Grade.rank] <;> linarith

/-- C4 witness: with the default thresholds, the higher score 0.9 gets at
least the rank of the lower score 0.6. -/
theorem assign_grade_monotone_witness :
    Grade.rank (assign_grade defaultGradeThresholds 0.6) ≤
      Grade.rank (assign_grade defaultGradeThresholds 0.9) :=
  assign_grade_monotone defaultGradeThresholds 0.9 0.6
    (by norm_num [GradeThresholds.inRange, defaultGradeThresholds])
    (by norm_num) (by norm_num) (by norm_num)

/-- Modelled from the spec: HTF bias alignment equals 1.0 when the zone bias
matches the higher-timeframe trend direction, 0.0 when opposite, 0.5 when
the higher timeframe is neutral (spec 4.5 and the integration guide
part_019); the feature-extractor module is not part of the repository. -/
def htf_alignment (bias : Direction) (trend : HTFTrend) : ℚ :=
  match trend with
  | .neutral => 0.5
  | .bullish => if bias = .bullish then 1 else 0
  | .bearish => if bias = .bearish then 1 else 0

/-- A FeatureVector with its HTF-alignment entry replaced, every other entry
kept. -/
def FeatureVector.withHTF (f : FeatureVector) (x : ℚ) : FeatureVector :=
  ⟨x, f.idm_detected_clarity, f.sweep_validation_strength,
    f.choch_confirmation_score, f.poi_validation_score, f.tick_density_score,
    f.spread_stability_score⟩

/-- C5: the HTF-alignment feature is 1 on a matching trend, 0 on the opposite
trend, 0.5 on a neutral trend, and flipping the trend of an otherwise
identical setup from matching to opposite lowers the weighted score by
exactly weight_HTF × 1.0 while every other feature entry is unchanged. -/
theorem htf_alignment_flip (bias : Direction) (f : FeatureVector)
    (w : FactorWeights) :
    htf_alignment bias bias.toTrend = 1 ∧
    htf_alignment bias bias.opposite.toTrend = 0 ∧
    htf_alignment bias HTFTrend.neutral = 1/2 ∧
    score (f.withHTF (htf_alignment bias bias.toTrend)) w -
        score (f.withHTF (htf_alignment bias bias.opposite.toTrend)) w =
      w.htf_bias_alignment * 1 ∧
    (∀ x : ℚ,
      (f.withHTF x).idm_detected_clarity = f.idm_detected_clarity ∧
      (f.withHTF x).sweep_validation_strength = f.sweep_validation_strength ∧
      (f.withHTF x).choch_confirmation_score = f.choch_confirmation_score ∧
      (f.withHTF x).poi_validation_score = f.poi_validation_score ∧
      (f.withHTF x).tick_density_score = f.tick_density_score ∧
      (f.withHTF x).spread_stability_score = f.spread_stability_score) := by
  cases bias <;>
    refine ⟨?_, ?_, ?_, ?_, fun x => ⟨rfl, rfl, rfl, rfl, rfl, rfl⟩⟩ <;>
    simp [htf_alignment, Direction.toTrend, Direction.opposite,
      FeatureVector.withHTF, score] <;>
    norm_num

/-- Direction of an active trade or a candidate setup. -/
inductive TradeDirection
  | long
  | short
deriving DecidableEq, Repr

/-- The opposite trade direction. -/
def TradeDirection.opposite : TradeDirection → TradeDirection
  | .long => .short
  | .short => .long

/-- An active position, consumed read-only by the conflict detector.
Modelled from the spec: instrument, direction and a time horizon given as a
closed interval of timestamps. -/
structure ActiveTrade where
  instrument : String
  direction : TradeDirection
  horizonStart : ℕ
  horizonEnd : ℕ
deriving DecidableEq, Repr

/-- A candidate setup submitted to the conflict detector. -/
structure CandidateSetup where
  instrument : String
  direction : TradeDirection
  horizonStart : ℕ
  horizonEnd : ℕ
deriving DecidableEq, Repr

/-- Whether the time horizons of an active trade and a candidate setup
overlap (closed intervals intersecting). -/
def horizonsOverlap (t : ActiveTrade) (c : CandidateSetup) : Bool :=
  decide (t.horizonStart ≤ c.horizonEnd) && decide (c.horizonStart ≤ t.horizonEnd)

/-- Modelled from the spec: check_for_conflict flags a conflict when some
active trade on the same instrument has the opposite direction and an
overlapping time horizon (spec 4.5); the enhanced_conflict_detector module is
referenced by the plugin README but its code is not part of the
repository. -/
def check_for_conflict (trades : List ActiveTrade) (c : CandidateSetup) : Bool :=
  trades.any fun t =>
    decide (t.instrument = c.instrument) &&
      decide (t.direction = c.direction.opposite) && horizonsOverlap t c

/-- C6: the conflict flag is true exactly when some active trade on the same
instrument has the opposite direction and an overlapping horizon, and a
candidate on an instrument with no active trade on that instrument is never
flagged. -/
theorem conflict_flag_correct (trades : List ActiveTrade) (c : CandidateSetup) :
    (check_for_conflict trades c = true ↔
      ∃ t ∈ trades, t.instrument = c.instrument ∧
        t.direction = c.direction.opposite ∧ horizonsOverlap t c = true) ∧
    ((∀ t ∈ trades, t.instrument ≠ c.instrument) →
      check_for_conflict trades c = false) := by
  have hiff : check_for_conflict trades c = true ↔
      ∃ t ∈ trades, t.instrument = c.instrument ∧
        t.direction = c.direction.opposite ∧ horizonsOverlap t c = true := by
    simp [check_for_conflict, List.any_eq_true, Bool.and_eq_true,
      decide_eq_true_eq, and_assoc]
  refine ⟨hiff, fun h => ?_⟩
  rw [Bool.eq_false_iff]
  intro hc
  obtain ⟨t, ht, hinstr, -, -⟩ := hiff.mp hc
  exact h t ht hinstr

/-- An active long EURUSD trade over timestamps 0 to 10. -/
def eurusdLong : ActiveTrade := ⟨"EURUSD", .long, 0, 10⟩

/-- A candidate short EURUSD setup over timestamps 5 to 15, overlapping the
active long. -/
def eurusdShortSetup : CandidateSetup := ⟨"EURUSD", .short, 5, 15⟩

/-- A candidate short GBPUSD setup, an instrument with no active trade. -/
def gbpusdSetup : CandidateSetup := ⟨"GBPUSD", .short, 5, 15⟩

/-- C6 witness: an active long EURUSD flags a short EURUSD candidate with
overlapping horizon, and never a GBPUSD candidate. -/
theorem conflict_flag_correct_witness :
    check_for_conflict [eurusdLong] eurusdShortSetup = true ∧
      check_for_conflict [eurusdLong] gbpusdSetup = false := by
  constructor
  · exact (conflict_flag_correct [eurusdLong] eurusdShortSetup).1.mpr
      ⟨eurusdLong, by simp, rfl, rfl, by decide⟩
  · refine (conflict_flag_correct [eurusdLong] gbpusdSetup).2 ?_
    intro t ht
    simp only [List.mem_singleton] at ht
    subst ht
    simp [eurusdLong, gbpusdSetup]

/-- Market phase of the Wyckoff-style state machine: Unknown plus
accumulation and distribution sub-phases A through E. -/
inductive Phase
  | Unknown
  | Accumulation_A
  | Accumulation_B
  | Accumulation_C
  | Accumulation_D
  | Accumulation_E
  | Distribution_A
  | Distribution_B
  | Distribution_C
  | Distribution_D
  | Distribution_E
deriving DecidableEq, Repr

/-- One edge of the configured phase transition table: current state,
triggering structure-event kind, next state. -/
structure TransitionRule where
  src : Phase
  event : String
  dst : Phase
deriving DecidableEq, Repr

/-- Modelled from the spec: one step of the Phase State Machine.  The
transition table maps a current state and a triggering event kind to a next
state (spec 4.4; the configured event lists live under
wyckoff_state_machine.phase_transitions in
zanflow_workspace/zanalytics_5/config.yaml.txt); an event with no rule for
the current state leaves the state unchanged.  The state-machine module
itself is not part of the repository. -/
def stepPhase (table : List TransitionRule) (s : Phase) (e : String) : Phase :=
  match table.find? (fun r => decide (r.src = s) && decide (r.event = e)) with
  | some r => r.dst
  | none => s

/-- Running the Phase State Machine over a sequence of structure-event kinds,
starting from the initial state Unknown. -/
def runPhase (table : List TransitionRule) (events : List String) : Phase :=
  events.foldl (stepPhase table) Phase.Unknown

/-- C7: the machine starts in Unknown, an event with no rule for the current
state leaves the state unchanged, and every step either holds the state or
moves along an edge of the configured transition table. -/
theorem phase_machine_follows_table (table : List TransitionRule) (s : Phase)
    (e : String) :
    runPhase table [] = Phase.Unknown ∧
    ((∀ r ∈ table, ¬(r.src = s ∧ r.event = e)) → stepPhase table s e = s) ∧
    (stepPhase table s e = s ∨
      ∃ r ∈ table, r.src = s ∧ r.event = e ∧ r.dst = stepPhase table s e) := by
  refine ⟨rfl, ?_, ?_⟩
  · intro h
    unfold stepPhase
    have hnone : table.find?
        (fun r => decide (r.src = s) && decide (r.event = e)) = none := by
      rw [List.find?_eq_none]
      intro r hr hpr
      rw [Bool.and_eq_true, decide_eq_true_eq, decide_eq_true_eq] at hpr
      exact h r hr hpr
    rw [hnone]
  · unfold stepPhase
    cases hF : table.find? (fun r => decide (r.src = s) && decide (r.event = e)) with
    | none => exact Or.inl rfl
    | some r =>
      have hmem := List.mem_of_find?_eq_some hF
      have hp := List.find?_some hF
      rw [Bool.and_eq_true, decide_eq_true_eq, decide_eq_true_eq] at hp
      exact Or.inr ⟨r, hmem, hp.1, hp.2, rfl⟩

/-- A small concrete transition table in the shape of the configured Wyckoff
table: initial events select a schematic, an automatic rally confirms phase
B. -/
def sampleTransitionTable : List TransitionRule :=
  [⟨.Unknown, "PS", .Accumulation_A⟩,
    ⟨.Accumulation_A, "AR_acc", .Accumulation_B⟩,
    ⟨.Unknown, "PSY", .Distribution_A⟩]

/-- C7 witness: on the concrete sample table the empty run stays in Unknown
and an event kind with no rule for Distribution_E holds the state. -/
theorem phase_machine_follows_table_witness :
    runPhase sampleTransitionTable [] = Phase.Unknown ∧
      stepPhase sampleTransitionTable Phase.Distribution_E "SC" =
        Phase.Distribution_E := by
  have h := phase_machine_follows_table sampleTransitionTable
    Phase.Distribution_E "SC"
  exact ⟨h.1, h.2.1 (by decide)⟩

/-- Mitigation state of a zone. -/
inductive Mitigation
  | unmitigated
  | partiallyMitigated
  | mitigated
deriving DecidableEq, Repr

/-- A price bar: timestamp, OHLC prices and volume. -/
structure Bar where
  ts : ℕ
  openPrice : ℚ
  highPrice : ℚ
  lowPrice : ℚ
  closePrice : ℚ
  volume : ℚ
deriving DecidableEq, Repr

/-- A point-of-interest zone: price range, directional bias and mitigation
state. -/
structure Zone where
  lo : ℚ
  hi : ℚ
  bias : Direction
  state : Mitigation
deriving DecidableEq, Repr

/-- Midpoint of the price range of a zone. -/
def Zone.midpoint (z : Zone) : ℚ := (z.lo + z.hi) / 2

/-- Whether a bar closes past the zone midpoint in the direction that
consumes the zone: below the midpoint of a bullish (demand) zone, above the
midpoint of a bearish (supply) zone. -/
def closesPastMidpoint (z : Zone) (b : Bar) : Bool :=
  match z.bias with
  | .bullish => decide (b.closePrice < z.midpoint)
  | .bearish => decide (z.midpoint < b.closePrice)

/-- Whether the range of a bar touches the zone midpoint. -/
def touchesMidpoint (z : Zone) (b : Bar) : Bool :=
  decide (b.lowPrice ≤ z.midpoint) && decide (z.midpoint ≤ b.highPrice)

/-- Modelled from the spec: the mitigation update on one new bar.  A zone
flips to mitigated the first time a bar closes past its midpoint, becomes
partially mitigated when price touches but does not close past the midpoint,
and a mitigated zone is never changed again (spec 4.3; POIManagerSMC applies
the midpoint close logic per part_008, but its code is not part of the
repository). -/
def mitStep (z : Zone) (b : Bar) : Zone :=
  match z.state with
  | .mitigated => z
  | _ =>
    if closesPastMidpoint z b then ⟨z.lo, z.hi, z.bias, .mitigated⟩
    else if touchesMidpoint z b then ⟨z.lo, z.hi, z.bias, .partiallyMitigated⟩
    else z

/-- The mitigation update folded over a sequence of subsequent bars. -/
def mitProcess (z : Zone) (bars : List Bar) : Zone := bars.foldl mitStep z

theorem closesPastMidpoint_mitStep (z : Zone) (b' b : Bar) :
    closesPastMidpoint (mitStep z b') b = closesPastMidpoint z b := by
  rcases z with ⟨lo, hi, bias, st⟩
  cases st <;> simp only [mitStep] <;> split_ifs <;> rfl

theorem mitStep_mitigated_iff (z : Zone) (b : Bar) :
    (mitStep z b).state = .mitigated ↔
      (z.state = .mitigated ∨ closesPastMidpoint z b = true) := by
  rcases z with ⟨lo, hi, bias, st⟩
  cases st <;> simp only [mitStep] <;>
    first
      | (split_ifs with h <;> simp_all)
      | simp_all

theorem mitProcess_mitigated_iff (bars : List Bar) (z : Zone) :
    (mitProcess z bars).state = .mitigated ↔
      (z.state = .mitigated ∨ ∃ b ∈ bars, closesPastMidpoint z b = true) := by
  induction bars generalizing z with
  | nil => simp [mitProcess]
  | cons b rest ih =>
    have h1 : mitProcess z (b :: rest) = mitProcess (mitStep z b) rest := rfl
    rw [h1, ih (mitStep z b), mitStep_mitigated_iff]
    simp_rw [closesPastMidpoint_mitStep]
    constructor
    · rintro ((hz | hb) | ⟨b', hb', hc⟩)
      · exact Or.inl hz
      · exact Or.inr ⟨b, List.mem_cons_self b rest, hb⟩
      · exact Or.inr ⟨b', List.mem_cons_of_mem b hb', hc⟩
    · rintro (hz | ⟨b', hb', hc⟩)
      · exact Or.inl (Or.inl hz)
      · rcases List.mem_cons.mp hb' with h | h
        · subst h
          exact Or.inl (Or.inr hc)
        · exact Or.inr ⟨b', h, hc⟩

/-- C8: over any sequence of subsequent bars, a zone ends mitigated exactly
when it already was or some bar closes past its midpoint, and once mitigated
it never reverts on any later bar. -/
theorem mitigation_monotone (z : Zone) (bars : List Bar) :
    ((mitProcess z bars).state = .mitigated ↔
      (z.state = .mitigated ∨ ∃ b ∈ bars, closesPastMidpoint z b = true)) ∧
    (z.state = Mitigation.mitigated →
      (mitProcess z bars).state = Mitigation.mitigated) :=
  ⟨mitProcess_mitigated_iff bars z,
    fun h => (mitProcess_mitigated_iff bars z).mpr (Or.inl h)⟩

/-- A bullish demand zone from 10 to 12 with midpoint 11, initially
unmitigated. -/
def demoZone : Zone := ⟨10, 12, .bullish, .unmitigated⟩

/-- Three bars; the second closes at 10.5, past the midpoint 11 of the demo
zone, and the third closes back above it. -/
def demoBars : List Bar :=
  [⟨0, 13, 13, 12, 12.5, 1⟩, ⟨1, 12, 12, 10, 10.5, 1⟩, ⟨2, 11, 13, 11, 12.8, 1⟩]

/-- C8 witness: the demo zone ends mitigated after the demo bars, the later
recovering bar notwithstanding. -/
theorem mitigation_monotone_witness :
    (mitProcess demoZone demoBars).state = Mitigation.mitigated :=
  (mitigation_monotone demoZone demoBars).1.mpr
    (Or.inr ⟨⟨1, 12, 12, 10, 10.5, 1⟩, by simp [demoBars],
      by norm_num [closesPastMidpoint, demoZone, Zone.midpoint]⟩)

/-- An aggregated higher-timeframe bar: time bucket index and OHLCV values. -/
structure AggBar where
  bucket : ℕ
  openPrice : ℚ
  highPrice : ℚ
  lowPrice : ℚ
  closePrice : ℚ
  volume : ℚ
deriving DecidableEq, Repr

/-- State of the streaming resampler: the aggregate of the still-open bucket
and the stream of already-closed higher-timeframe bars. -/
structure ResampleState where
  cur : Option AggBar
  emitted : List AggBar
deriving DecidableEq, Repr

/-- Modelled from the spec: one step of the causal multi-timeframe resampler.
A base bar opens a new bucket, or merges into the current bucket by the
standard OHLCV aggregation rules, or, when it belongs to a different bucket,
closes and emits the current aggregate, a higher-timeframe bar being emitted
only once all base bars of its bucket have arrived (spec 4.1); the resampler
module (zanzibar_resample.py) is referenced by the workspace notes but its
code is not part of the repository. -/
def resampleStep (period : ℕ) (st : ResampleState) (b : Bar) : ResampleState :=
  let k := b.ts / period
  match st.cur with
  | none =>
    ⟨some ⟨k, b.openPrice, b.highPrice, b.lowPrice, b.closePrice, b.volume⟩,
      st.emitted⟩
  | some a =>
    if a.bucket = k then
      ⟨some ⟨k, a.openPrice, max a.highPrice b.highPrice,
        min a.lowPrice b.lowPrice, b.closePrice, a.volume + b.volume⟩,
        st.emitted⟩
    else
      ⟨some ⟨k, b.openPrice, b.highPrice, b.lowPrice, b.closePrice, b.volume⟩,
        st.emitted ++ [a]⟩

/-- Folding the resampler over a base series from the empty state. -/
def resampleRun (period : ℕ) (bars : List Bar) : ResampleState :=
  bars.foldl (resampleStep period) ⟨none, []⟩

/-- The stream of closed higher-timeframe bars emitted for a base series. -/
def resample (period : ℕ) (bars : List Bar) : List AggBar :=
  (resampleRun period bars).emitted

/-- Whether the timestamps of a bar series are strictly ascending. -/
def strictlyOrdered : List Bar → Bool
  | [] => true
  | [_] => true
  | a :: b :: rest => decide (a.ts < b.ts) && strictlyOrdered (b :: rest)

theorem resampleStep_emitted (period : ℕ) (st : ResampleState) (b : Bar) :
    ∃ extra, (resampleStep period st b).emitted = st.emitted ++ extra := by
  rcases st with ⟨cur, emitted⟩
  cases cur with
  | none => exact ⟨[], (List.append_nil _).symm⟩
  | some a =>
    by_cases hk : a.bucket = b.ts / period
    · exact ⟨[], by simp [resampleStep, hk]⟩
    · exact ⟨[a], by simp [resampleStep, hk]⟩

theorem resampleFold_emitted (period : ℕ) (bars : List Bar)
    (st : ResampleState) :
    ∃ extra, (bars.foldl (resampleStep period) st).emitted =
      st.emitted ++ extra := by
  induction bars generalizing st with
  | nil => exact ⟨[], (List.append_nil _).symm⟩
  | cons b rest ih =>
    obtain ⟨e1, he1⟩ := resampleStep_emitted period st b
    obtain ⟨e2, he2⟩ := ih (resampleStep period st b)
    exact ⟨e1 ++ e2, by rw [List.foldl_cons, he2, he1, List.append_assoc]⟩

/-- C9: resampling an ordered base series is deterministic (in this pure
embedding the two runs are definitionally the same function value), and
causal: the stream emitted for a prefix of the base series is preserved
unchanged, later base bars only appending to it. -/
theorem resample_causal (period : ℕ) (xs ys : List Bar)
    (_hord : strictlyOrdered (xs ++ ys) = true) :
    resample period xs = resample period xs ∧
      ∃ extra, resample period (xs ++ ys) = resample period xs ++ extra := by
  refine ⟨rfl, ?_⟩
  unfold resample resampleRun
  rw [List.foldl_append]
  exact resampleFold_emitted period ys (xs.foldl (resampleStep period) ⟨none, []⟩)

/-- A concrete ordered base series, first part: four one-minute bars over two
five-minute buckets. -/
def demoBaseA : List Bar :=
  [⟨0, 1, 2, 1, 1.5, 1⟩, ⟨1, 1.5, 3, 1, 2, 1⟩, ⟨5, 2, 2.5, 1.8, 2.2, 1⟩,
    ⟨6, 2.2, 4, 2, 3, 1⟩]

/-- A concrete ordered base series, second part: two later bars. -/
def demoBaseB : List Bar := [⟨10, 3, 3.5, 2.9, 3.2, 1⟩, ⟨11, 3.2, 3.3, 3, 3.1, 1⟩]

/-- C9 witness: the concrete series is ordered and the bars emitted for the
prefix are preserved when the later bars are processed. -/
theorem resample_causal_witness :
    strictlyOrdered (demoBaseA ++ demoBaseB) = true ∧
      (∃ extra, resample 5 (demoBaseA ++ demoBaseB) =
        resample 5 demoBaseA ++ extra) :=
  ⟨by decide, (resample_causal 5 demoBaseA demoBaseB (by decide)).2⟩

/-- The raw payload of a journal entry before validation: every field of the
JournalEntry pydantic model, each either absent (none) or present. -/
structure JournalEntryInput where
  symbol : Option String
  timeframe : Option String
  bias : Option String
  action : Option String
  notes : Option String
  session_id : Option String
  maturity_score : Option ℚ
  entry_price : Option ℚ
  stop_loss : Option ℚ
  take_profit : Option ℚ
  metadata : Option (List (String × String))
deriving DecidableEq, Repr

/-- A validated journal entry.  Embedded from the pydantic model JournalEntry
in the Phoenix-Session architecture document (lines 334-346): symbol is the
only required field, timeframe carries the default H4, metadata defaults to
the empty dictionary, and the remaining fields are optional with default
None; maturity_score is a plain optional float with no ge/le constraint,
although its description documents it as a 0-1 score. -/
structure JournalEntry where
  symbol : String
  timeframe : String
  bias : Option String
  action : Option String
  notes : Option String
  session_id : Option String
  maturity_score : Option ℚ
  entry_price : Option ℚ
  stop_loss : Option ℚ
  take_profit : Option ℚ
  metadata : List (String × String)
deriving DecidableEq, Repr

/-- Validation of a journal-entry payload against the JournalEntry model:
fails exactly when symbol is absent, fills the defaults, and passes every
other present value through unchecked. -/
def validateJournalEntry (i : JournalEntryInput) : Except String JournalEntry :=
  match i.symbol with
  | none => .error "field required: symbol"
  | some s =>
    .ok ⟨s, i.timeframe.getD "H4", i.bias, i.action, i.notes, i.session_id,
      i.maturity_score, i.entry_price, i.stop_loss, i.take_profit,
      i.metadata.getD []⟩

/-- Whether validating a journal-entry payload succeeds. -/
def journalValidationSucceeds (i : JournalEntryInput) : Bool :=
  match validateJournalEntry i with
  | .ok _ => true
  | .error _ => false

/-- C10: journal-entry validation succeeds exactly when the symbol is
present; the validated entry takes timeframe H4 when none was given and
carries every optional field through unchanged, the maturity score in
particular being accepted without any numeric range check. -/
theorem journal_entry_only_symbol_required (i : JournalEntryInput) :
    (journalValidationSucceeds i = true ↔ i.symbol.isSome = true) ∧
    (∀ e, validateJournalEntry i = .ok e →
      e.timeframe = i.timeframe.getD "H4" ∧
      e.maturity_score = i.maturity_score ∧
      e.bias = i.bias ∧ e.action = i.action ∧ e.notes = i.notes ∧
      e.session_id = i.session_id ∧ e.entry_price = i.entry_price ∧
      e.stop_loss = i.stop_loss ∧ e.take_profit = i.take_profit ∧
      e.metadata = i.metadata.getD []) := by
  constructor
  · cases hsym : i.symbol <;>
      simp [journalValidationSucceeds, validateJournalEntry, hsym]
  · intro e he
    cases hsym : i.symbol with
    | none =>
      unfold validateJournalEntry at he
      rw [hsym] at he
      exact absurd he (by simp)
    | some s =>
      unfold validateJournalEntry at he
      rw [hsym] at he
      simp only [Except.ok.injEq] at he
      subst he
      exact ⟨rfl, rfl, rfl, rfl, rfl, rfl, rfl, rfl, rfl, rfl⟩

/-- A concrete journal payload: symbol present, timeframe absent, and a
maturity score of 5, far outside the documented 0-1 range. -/
def journalInputExample : JournalEntryInput :=
  ⟨some "XAUUSD", none, some "bullish", none, none, none, some 5, none, none,
    none, none⟩

/-- C10 witness: the concrete payload validates even with maturity score 5,
and the validated entry carries timeframe H4. -/
theorem journal_entry_only_symbol_required_witness :
    journalValidationSucceeds journalInputExample = true ∧
      validateJournalEntry journalInputExample =
        .ok ⟨"XAUUSD", "H4", some "bullish", none, none, none, some 5, none,
          none, none, []⟩ := by
  constructor
  · exact (journal_entry_only_symbol_required journalInputExample).1.mpr rfl
  · rfl

end NCOS
